import Mathlib

/-!
Verification development for the bank-transaction reconciliation pipeline
(`process_bank_excel.py`, `api_server.py`).  The Python source is shallowly
embedded: Python strings become `List Char`, SQLite tables become Lean lists,
machine floats that the program rounds to 2 decimals become `ℚ`, and the
fallible SQLite calls become explicit `Except`/snapshot parameters.
-/

set_option maxRecDepth 10000

namespace Bank

/-! ### 32-bit words as `Nat` reduced mod 2^32 (MD5 needs them) -/

def w32 (n : Nat) : Nat := n % 4294967296

def wadd (a b : Nat) : Nat := w32 (a + b)

/-- Bitwise complement on 32-bit words. -/
def wnot (a : Nat) : Nat := 4294967295 - w32 a

/-- Rotate a 32-bit word left by `s` bits. -/
def wrotl (x s : Nat) : Nat := w32 ((w32 x) <<< s) ||| ((w32 x) >>> (32 - s))

/-! ### MD5 (RFC 1321), over a list of bytes.
`get_transaction_id` in `process_bank_excel.py` hashes the normalized row data
with `hashlib.md5(...).hexdigest()`; we embed the real hash so that concrete
fingerprints are the ones the program computes. -/

def md5K : List Nat :=
  [3614090360, 3905402710, 606105819, 3250441966, 4118548399, 1200080426,
   2821735955, 4249261313, 1770035416, 2336552879, 4294925233, 2304563134,
   1804603682, 4254626195, 2792965006, 1236535329, 4129170786, 3225465664,
   643717713, 3921069994, 3593408605, 38016083, 3634488961, 3889429448,
   568446438, 3275163606, 4107603335, 1163531501, 2850285829, 4243563512,
   1735328473, 2368359562, 4294588738, 2272392833, 1839030562, 4259657740,
   2763975236, 1272893353, 4139469664, 3200236656, 681279174, 3936430074,
   3572445317, 76029189, 3654602809, 3873151461, 530742520, 3299628645,
   4096336452, 1126891415, 2878612391, 4237533241, 1700485571, 2399980690,
   4293915773, 2240044497, 1873313359, 4264355552, 2734768916, 1309151649,
   4149444226, 3174756917, 718787259, 3951481745]

def md5S : List Nat :=
  [7, 12, 17, 22, 7, 12, 17, 22, 7, 12, 17, 22, 7, 12, 17, 22,
   5, 9, 14, 20, 5, 9, 14, 20, 5, 9, 14, 20, 5, 9, 14, 20,
   4, 11, 16, 23, 4, 11, 16, 23, 4, 11, 16, 23, 4, 11, 16, 23,
   6, 10, 15, 21, 6, 10, 15, 21, 6, 10, 15, 21, 6, 10, 15, 21]

/-- Round function and message index for MD5 round `i`. -/
def md5FG (i b c d : Nat) : Nat × Nat :=
  if i < 16 then ((b &&& c) ||| (wnot b &&& d), i)
  else if i < 32 then ((d &&& b) ||| (wnot d &&& c), (5 * i + 1) % 16)
  else if i < 48 then (b ^^^ c ^^^ d, (3 * i + 5) % 16)
  else (c ^^^ (b ||| wnot d), (7 * i) % 16)

def md5Round (M : List Nat) (st : Nat × Nat × Nat × Nat) (i : Nat) :
    Nat × Nat × Nat × Nat :=
  let a := st.1; let b := st.2.1; let c := st.2.2.1; let d := st.2.2.2
  let fg := md5FG i b c d
  let f := wadd (wadd fg.1 a) (wadd (md5K.getD i 0) (M.getD fg.2 0))
  (d, wadd b (wrotl f (md5S.getD i 0)), b, c)

/-- Combine groups of 4 bytes into little-endian 32-bit words. -/
def leWords : List Nat → List Nat
  | b0 :: b1 :: b2 :: b3 :: rest =>
      (b0 + 256 * (b1 + 256 * (b2 + 256 * b3))) :: leWords rest
  | _ => []

def md5Block (st : Nat × Nat × Nat × Nat) (M : List Nat) :
    Nat × Nat × Nat × Nat :=
  let r := (List.range 64).foldl (md5Round M) st
  (wadd st.1 r.1, wadd st.2.1 r.2.1, wadd st.2.2.1 r.2.2.1,
   wadd st.2.2.2 r.2.2.2)

/-- Process the padded message 64 bytes at a time (fuel = list length). -/
def md5BlocksAux : Nat → (Nat × Nat × Nat × Nat) → List Nat →
    Nat × Nat × Nat × Nat
  | 0, st, _ => st
  | fuel + 1, st, bs =>
      if bs.isEmpty then st
      else md5BlocksAux fuel (md5Block st (leWords (bs.take 64))) (bs.drop 64)

/-- Little-endian byte serialization of `v`, `k` bytes long. -/
def leBytes : Nat → Nat → List Nat
  | 0, _ => []
  | k + 1, v => v % 256 :: leBytes k (v / 256)

/-- MD5 padding: `0x80`, zeros to 56 mod 64, then the bit length (64-bit LE). -/
def md5Pad (msg : List Nat) : List Nat :=
  msg ++ 128 :: List.replicate ((119 - msg.length % 64) % 64) 0 ++
    leBytes 8 ((8 * msg.length) % 18446744073709551616)

def md5Digest (msg : List Nat) : List Nat :=
  let p := md5Pad msg
  let st := md5BlocksAux (p.length + 1)
    (1732584193, 4023233417, 2562383102, 271733878) p
  leBytes 4 st.1 ++ leBytes 4 st.2.1 ++ leBytes 4 st.2.2.1 ++ leBytes 4 st.2.2.2

def hexDigit (n : Nat) : Char :=
  if n < 10 then Char.ofNat (48 + n) else Char.ofNat (87 + n)

/-- Hex rendering of a byte list, two lowercase digits per byte. -/
def hexOfBytes (bs : List Nat) : List Char :=
  bs.foldr (fun b acc => hexDigit (b / 16) :: hexDigit (b % 16) :: acc) []

/-- UTF-8 encoding of one character (Python `str.encode()`). -/
def utf8Char (c : Char) : List Nat :=
  let n := c.toNat
  if n < 128 then [n]
  else if n < 2048 then [192 + n / 64, 128 + n % 64]
  else if n < 65536 then [224 + n / 4096, 128 + n / 64 % 64, 128 + n % 64]
  else [240 + n / 262144, 128 + n / 4096 % 64, 128 + n / 64 % 64, 128 + n % 64]

def utf8 (s : List Char) : List Nat := s.foldr (fun c acc => utf8Char c ++ acc) []

/-- `hashlib.md5(s.encode()).hexdigest()` as a function on character lists. -/
def md5Hex (s : List Char) : List Char := hexOfBytes (md5Digest (utf8 s))

/-- RFC 1321 test vector, checking the embedded hash against the real MD5. -/
example : md5Hex "abc".toList = "900150983cd24fb0d6963f7d28e17f72".toList := by
  decide

example : md5Hex [] = "d41d8cd98f00b204e9800998ecf8427e".toList := by decide

/-! ### Text helpers (Python `str` operations on `List Char`) -/

/-- Python `str.strip()`: drop whitespace from both ends. -/
def trimWs (s : List Char) : List Char :=
  ((s.dropWhile Char.isWhitespace).reverse.dropWhile Char.isWhitespace).reverse

/-- Python `str.lower()`, ASCII model (descriptions are treated codepointwise). -/
def lowerWs (s : List Char) : List Char := s.map Char.toLower

/-- Python `str.split()`: split on whitespace runs, discarding empty pieces. -/
def splitWs (s : List Char) : List (List Char) :=
  (s.foldr
    (fun c acc =>
      if c.isWhitespace then [] :: acc
      else match acc with
        | [] => [[c]]
        | w :: ws => (c :: w) :: ws)
    []).filter (· ≠ [])

/-- Python `' '.join(s.split())`: collapse whitespace runs to single spaces. -/
def collapseWs (s : List Char) : List Char := List.intercalate [' '] (splitWs s)

/-- Decimal digits of `n` (fuel-based division loop). -/
def natDigitsAux : Nat → Nat → List Char → List Char
  | 0, _, acc => acc
  | fuel + 1, n, acc =>
      if n < 10 then hexDigit n :: acc
      else natDigitsAux fuel (n / 10) (hexDigit (n % 10) :: acc)

def natDigits (n : Nat) : List Char := natDigitsAux (n + 1) n []

/-- Zero-pad a digit string on the left to width `w`. -/
def padZero (w : Nat) (ds : List Char) : List Char :=
  List.replicate (w - ds.length) '0' ++ ds

/-! ### Calendar dates.
The program carries dates as `datetime`/ISO `YYYY-MM-DD` text; SQLite compares
that text lexicographically, which on ISO dates coincides with chronological
order, so the embedding compares day numbers. -/

structure Date where
  year : Int
  month : Int
  day : Int
deriving DecidableEq

/-- Days since 1970-01-01 (civil calendar; standard days-from-civil formula).
Models `datetime` subtraction / `timedelta` arithmetic. -/
def Date.toDays (dt : Date) : Int :=
  let y := dt.year - (if dt.month ≤ 2 then 1 else 0)
  let era := (if 0 ≤ y then y else y - 399) / 400
  let yoe := y - era * 400
  let mp := dt.month + (if 2 < dt.month then -3 else 9)
  let doy := (153 * mp + 2) / 5 + dt.day - 1
  let doe := yoe * 365 + yoe / 4 - yoe / 100 + doy
  era * 146097 + doe - 719468

/-- ISO rendering `YYYY-MM-DD`, i.e. `str(pd.to_datetime(...).date())` and
`strftime(' percent Y- percent m- percent d')` for in-range dates. -/
def Date.iso (dt : Date) : List Char :=
  padZero 4 (natDigits dt.year.toNat) ++
    '-' :: (padZero 2 (natDigits dt.month.toNat) ++
    '-' :: padZero 2 (natDigits dt.day.toNat))

example : Date.toDays ⟨1970, 1, 1⟩ = 0 := by decide
example : Date.toDays ⟨2024, 3, 1⟩ - Date.toDays ⟨2024, 2, 28⟩ = 2 := by decide
example : Date.iso ⟨2024, 1, 5⟩ = "2024-01-05".toList := by decide

/-! ### Amounts.
Excel amounts are Python floats that the program immediately rounds or formats
to 2 decimals; the embedding models them as rationals, with Python's
round-half-to-even for `round(x, 2)` and string formatting for the `.2f`
f-string.  Core `Rat.add` / `Rat.sub` / `Rat.mul` are `@[irreducible]`, which
blocks kernel evaluation inside concrete witnesses, so the embedding computes
with equivalent `mkRat`-based operations, proved equal to the standard ones. -/

def qAdd (a b : ℚ) : ℚ := mkRat (a.num * b.den + b.num * a.den) (a.den * b.den)

def qSub (a b : ℚ) : ℚ := mkRat (a.num * b.den - b.num * a.den) (a.den * b.den)

def qMul (a b : ℚ) : ℚ := mkRat (a.num * b.num) (a.den * b.den)

theorem num_cast_eq (a : ℚ) : (a.num : ℚ) = a * a.den := by
  have hd : ((a.den : ℚ)) ≠ 0 := by positivity
  exact (div_eq_iff hd).mp (Rat.num_div_den a)

theorem qAdd_eq (a b : ℚ) : qAdd a b = a + b := by
  rw [qAdd, Rat.mkRat_eq_div,
    div_eq_iff (by positivity : ((a.den * b.den : ℕ) : ℚ) ≠ 0)]
  push_cast [num_cast_eq]
  ring

theorem qSub_eq (a b : ℚ) : qSub a b = a - b := by
  rw [qSub, Rat.mkRat_eq_div,
    div_eq_iff (by positivity : ((a.den * b.den : ℕ) : ℚ) ≠ 0)]
  push_cast [num_cast_eq]
  ring

theorem qMul_eq (a b : ℚ) : qMul a b = a * b := by
  rw [qMul, Rat.mkRat_eq_div,
    div_eq_iff (by positivity : ((a.den * b.den : ℕ) : ℚ) ≠ 0)]
  push_cast [num_cast_eq]
  ring

/-- Round half to even (Python `round` / IEEE default on exact halves).
The fractional part `x - floor x` is compared with 1/2 by cross-multiplying
with the denominator, keeping everything in kernel-evaluable `Int` terms. -/
def rndHalfEven (x : ℚ) : Int :=
  let f := Rat.floor x
  let t := 2 * (x.num - f * x.den)
  if t < (x.den : Int) then f
  else if (x.den : Int) < t then f + 1
  else if f % 2 = 0 then f else f + 1

/-- Python `round(x, 2)`. -/
def round2 (x : ℚ) : ℚ := mkRat (rndHalfEven (qMul 100 x)) 100

/-- Python `.2f` f-string formatting of an amount. -/
def format2 (x : ℚ) : List Char :=
  let c := rndHalfEven (qMul 100 x)
  let n := c.natAbs
  (if c < 0 then ['-'] else []) ++
    natDigits (n / 100) ++ '.' :: padZero 2 (natDigits (n % 100))

example : format2 5 = "5.00".toList := by decide
example : format2 (mkRat (-1) 2) = "-0.50".toList := by decide
example : round2 (mkRat 12345 1000) = mkRat 1234 100 := by decide
example : round2 (mkRat 125 1000) = mkRat 12 100 := by decide
example : round2 (mkRat 135 1000) = mkRat 14 100 := by decide

/-! ### Description similarity: `difflib.SequenceMatcher(None, a, b).ratio()`.
Ratcliff–Obershelp: repeatedly take the longest matching block and recurse on
the pieces to its left and right; the ratio is `2 * M / (len a + len b)`.
No junk handling is modelled: the pipeline passes `isjunk=None` and autojunk
only activates on strings of 200+ characters. -/

/-- Length of the common prefix of two character lists. -/
def commonPrefLen : List Char → List Char → Nat
  | a :: as, b :: bs => if a = b then commonPrefLen as bs + 1 else 0
  | _, _ => 0

/-- `find_longest_match` over the whole strings: the longest pair of equal
runs, preferring the earliest start in `a`, then the earliest start in `b`
(realized by strict improvement over ascending scan order). -/
def findLongestMatch (a b : List Char) : Nat × Nat × Nat :=
  (List.range a.length).foldl
    (fun best i =>
      (List.range b.length).foldl
        (fun best j =>
          let k := commonPrefLen (a.drop i) (b.drop j)
          if best.2.2 < k then (i, j, k) else best)
        best)
    (0, 0, 0)

/-- Total matched characters across all matching blocks
(`get_matching_blocks`); fuel bounds the divide-and-conquer depth. -/
def matchingSizeAux : Nat → List Char → List Char → Nat
  | 0, _, _ => 0
  | fuel + 1, a, b =>
      let m := findLongestMatch a b
      if m.2.2 = 0 then 0
      else
        matchingSizeAux fuel (a.take m.1) (b.take m.2.1) + m.2.2 +
          matchingSizeAux fuel (a.drop (m.1 + m.2.2)) (b.drop (m.2.1 + m.2.2))

def matchingSize (a b : List Char) : Nat := matchingSizeAux (a.length + 1) a b

/-- `SequenceMatcher.ratio()`; two empty strings give ratio 1. -/
def simScore (a b : List Char) : ℚ :=
  if a.length + b.length = 0 then 1
  else mkRat (2 * matchingSize a b) (a.length + b.length)

/-- Matcher-side normalization `' '.join(description.lower().split())`. -/
def normSim (s : List Char) : List Char := collapseWs (lowerWs s)

example : simScore "ab".toList "ba".toList = mkRat 1 2 := by decide
example : simScore "abcd".toList "bcd".toList = mkRat 6 7 := by decide
example : normSim "SUPERMARKET   ABC".toList = "supermarket abc".toList := by
  decide

/-! ### The ledger (`transactions` table) and its operations. -/

/-- Environment-configurable knobs, at their defaults
(`SIMILARITY_THRESHOLD = 0.6`, `DATE_WINDOW_DAYS = 3`). -/
def SIMILARITY_THRESHOLD : ℚ := mkRat 3 5

def DATE_WINDOW_DAYS : Int := 3

/-- One row of the `transactions` table.  `transaction_id` is the fingerprint
primary key; dates are stored as ISO text, embedded as `Date`. -/
structure Tx where
  transaction_id : List Char
  transaction_date : Date
  description : List Char
  amount : ℚ
  category : Option (List Char)
  processed_at : List Char
deriving DecidableEq

/-- The `transactions` table; the `TEXT PRIMARY KEY` constraint corresponds to
no two entries sharing a `transaction_id`. -/
def Ledger := List Tx

/-- `check_if_id_exists`: `SELECT 1 ... WHERE transaction_id = ?`; a falsy
(`None`/empty) id short-circuits to `False` without querying. -/
def check_if_id_exists (db : List Tx) (tid : List Char) : Bool :=
  if tid.isEmpty then false
  else db.any (fun t => decide (t.transaction_id = tid))

/-- `insert_transaction`: `INSERT INTO transactions ...`.  A primary-key
conflict raises `sqlite3.IntegrityError`, which the function catches and turns
into `False` with the table unchanged; success appends the row and returns
`True`.  (The required-keys precheck always passes here because `Tx` carries
every column.) -/
def insert_transaction (db : List Tx) (tx : Tx) : Bool × List Tx :=
  if db.any (fun t => decide (t.transaction_id = tx.transaction_id)) then
    (false, db)
  else (true, db ++ [tx])

/-- Amount/date window of the candidate query:
`amount BETWEEN ? - 0.01 AND ? + 0.01` and
`transaction_date BETWEEN date - 3 days AND date + 3 days`
(ISO text comparison coincides with day-number comparison). -/
def inWindow (amount : ℚ) (dt : Date) (t : Tx) : Bool :=
  decide (qSub amount (mkRat 1 100) ≤ t.amount) &&
  decide (t.amount ≤ qAdd amount (mkRat 1 100)) &&
  decide (dt.toDays - DATE_WINDOW_DAYS ≤ t.transaction_date.toDays) &&
  decide (t.transaction_date.toDays ≤ dt.toDays + DATE_WINDOW_DAYS)

/-- `ORDER BY transaction_date DESC`: most recent first. -/
def dateDescOrder (t u : Tx) : Prop :=
  u.transaction_date.toDays ≤ t.transaction_date.toDays

instance : DecidableRel dateDescOrder := fun t u =>
  inferInstanceAs
    (Decidable (u.transaction_date.toDays ≤ t.transaction_date.toDays))

instance : IsTotal Tx dateDescOrder :=
  ⟨fun t u => (le_total u.transaction_date.toDays t.transaction_date.toDays)⟩

instance : IsTrans Tx dateDescOrder :=
  ⟨fun _ _ _ h h' => le_trans h' h⟩

/-- The candidate query of `find_potential_duplicate`:
window filter, `ORDER BY transaction_date DESC`, `LIMIT 10`. -/
def rangeQuery (db : List Tx) (amount : ℚ) (dt : Date) : List Tx :=
  (List.insertionSort dateDescOrder (db.filter (inWindow amount dt))).take 10

/-- The similarity the loop computes for one stored candidate:
`SequenceMatcher(None, normalized_new_desc, normalized_existing_desc).ratio()`. -/
def simOf (description : List Char) (t : Tx) : ℚ :=
  simScore (normSim description) (normSim t.description)

/-- One iteration of the scoring loop of `find_potential_duplicate`: keep the
candidate when its similarity is over the threshold and strictly better than
the running best (`similarity >= SIMILARITY_THRESHOLD and similarity >
highest_similarity`). -/
def scanStep (description : List Char) (best : Option Tx × ℚ) (t : Tx) :
    Option Tx × ℚ :=
  let sim := simOf description t
  if SIMILARITY_THRESHOLD ≤ sim ∧ best.2 < sim then (some t, sim) else best

/-- The scoring loop (`best_match` / `highest_similarity` start at
`None` / `0.0`). -/
def scanBest (description : List Char) (cands : List Tx) : Option Tx × ℚ :=
  cands.foldl (scanStep description) (none, 0)

/-- `find_potential_duplicate` after the candidate query: empty candidate set
returns `None`; a `sqlite3.Error` from the query (the `Except.error` case) is
caught and also returns `None` ("en caso de error, no bloquear"). -/
def find_potential_duplicate (queryResult : Except Unit (List Tx))
    (description : List Char) : Option Tx :=
  match queryResult with
  | .error _ => none
  | .ok cands =>
      if cands.isEmpty then none
      else (scanBest description cands).1

/-- `find_potential_duplicate` in the non-failing case, query included. -/
def findDup (db : List Tx) (amount : ℚ) (dt : Date)
    (description : List Char) : Option Tx :=
  find_potential_duplicate (.ok (rangeQuery db amount dt)) description

/-! ### Rows and fingerprints (`get_transaction_id`). -/

/-- One spreadsheet row as the loop sees it after pandas parsing.
`fecha` is the `pd.to_datetime(..., errors='coerce')` result (`none` = `NaT`),
`descRaw` the raw description cell (`none` = column missing), `monto` the
`float(...)` of the amount cell (`none` = missing or unparseable), and
`bankId` the external bank id when that column is configured, present and
non-null. -/
structure RawRow where
  fecha : Option Date
  descRaw : Option (List Char)
  monto : Option ℚ
  bankId : Option (List Char)
deriving DecidableEq

/-- `get_transaction_id`: external bank id (stripped) when available,
otherwise the MD5 hex digest of `date_str ++ "_" ++ desc_str ++ "_" ++
amount_str` where `date_str` is the ISO date, `desc_str` the stripped,
lowercased description (no internal-whitespace collapsing here, unlike the
matcher's normalization) and `amount_str` the `.2f` rendering of the raw
amount.  Missing columns or an unparseable date yield `None`.  (The source
re-parses the date cell without `dayfirst`; both call sites are deterministic
functions of the cell, and the embedding uses the parsed date.) -/
def get_transaction_id (r : RawRow) : Option (List Char) :=
  match r.bankId with
  | some b => some (trimWs b)
  | none =>
      match r.fecha, r.descRaw, r.monto with
      | some f, some d, some a =>
          some (md5Hex
            (f.iso ++ '_' :: (lowerWs (trimWs d) ++ '_' :: format2 a)))
      | _, _, _ => none

/-! ### The reconciliation loop of `process_excel_file`. -/

/-- The five per-row outcomes named by the specification.  The loop in
`process_excel_file` only ever produces the first four: the program keeps no
discard log, so no row is ever classified `previouslyDiscarded`. -/
inductive RowClass
  | inserted
  | pendingConfirmation
  | exactDuplicate
  | previouslyDiscarded
  | failed
deriving DecidableEq

/-- `dd/mm/YYYY` display rendering (`strftime` with day, month, year). -/
def displayDate (dt : Date) : List Char :=
  padZero 2 (natDigits dt.day.toNat) ++
    '/' :: (padZero 2 (natDigits dt.month.toNat) ++
    '/' :: padZero 4 (natDigits dt.year.toNat))

/-- Comma thousands-grouping of an integer digit string (Python `,` format). -/
def insertCommas (ds : List Char) : List Char :=
  (ds.reverse.foldl
    (fun (p : Nat × List Char) c =>
      (p.1 + 1, if p.1 % 3 = 0 ∧ p.1 ≠ 0 then c :: ',' :: p.2 else c :: p.2))
    (0, [])).2

/-- Python `f"..:,.2f"` display formatting of an amount. -/
def format2Grouped (x : ℚ) : List Char :=
  let c := rndHalfEven (qMul 100 x)
  let n := c.natAbs
  (if c < 0 then ['-'] else []) ++
    insertCommas (natDigits (n / 100)) ++ '.' :: padZero 2 (natDigits (n % 100))

example : format2Grouped (mkRat 123456789 100) = "1,234,567.89".toList := by
  decide

/-- One element of `pending_confirmation_list`: the `new_transaction` dict
plus the `existing_match` dict. -/
structure PendingItem where
  potential_id : List Char
  date_db : Date
  date_display : List Char
  desc : List Char
  amount : ℚ
  amount_display : List Char
  existing_id : List Char
  existing_date_display : List Char
  existing_desc : List Char
  existing_amount_display : List Char
deriving DecidableEq

/-- What one loop iteration did to the row; a pending classification carries
the item appended to `pending_confirmation_list`. -/
inductive RowOutcome
  | inserted
  | pendingConfirmation (item : PendingItem)
  | exactDuplicate
  | failed
deriving DecidableEq

/-- The five-outcome classification of the specification.  The loop can only
produce the four `RowOutcome` shapes, so `previouslyDiscarded` is never hit. -/
def RowOutcome.toClass : RowOutcome → RowClass
  | .inserted => .inserted
  | .pendingConfirmation _ => .pendingConfirmation
  | .exactDuplicate => .exactDuplicate
  | .failed => .failed

/-- The description the loop works with: stripped raw cell, defaulting to
"Sin Descripción" when empty/missing. -/
def effDesc (r : RawRow) : List Char :=
  let desc0 := trimWs (r.descRaw.getD [])
  if desc0.isEmpty then "Sin Descripción".toList else desc0

/-- One iteration of the row loop, with the three storage interactions made
explicit so that concurrent interleavings can be expressed: `dbCheck` is the
table seen by the exact-duplicate `SELECT`, `query` produces the near-dup
candidate query's outcome (`Except.error` = `sqlite3.Error`), and `dbIns` is
the table seen by the `INSERT`.  A sequential run passes the same table to
all three (`processRow`). -/
def processRowWith (dbCheck : List Tx) (query : ℚ → Date → Except Unit (List Tx))
    (dbIns : List Tx) (now : List Char) (r : RawRow) :
    RowOutcome × List Tx :=
  match r.fecha with
  | none => (.failed, dbIns)
  | some fecha =>
      match r.monto with
      | none => (.failed, dbIns)
      | some rawAmount =>
          let desc := effDesc r
          let monto := round2 rawAmount
          match get_transaction_id r with
          | none => (.failed, dbIns)
          | some txId =>
              if check_if_id_exists dbCheck txId then
                (.exactDuplicate, dbIns)
              else
                match find_potential_duplicate (query monto fecha) desc with
                | some m =>
                    (.pendingConfirmation
                      ⟨txId, fecha, displayDate fecha, desc, monto,
                        format2Grouped monto, m.transaction_id,
                        displayDate m.transaction_date, m.description,
                        format2Grouped m.amount⟩, dbIns)
                | none =>
                    let tx : Tx := ⟨txId, fecha, desc, monto, none, now⟩
                    match insert_transaction dbIns tx with
                    | (true, db2) => (.inserted, db2)
                    | (false, db2) => (.failed, db2)

/-- A sequential loop iteration: all three storage interactions see the same
table state. -/
def processRow (db : List Tx) (now : List Char) (r : RawRow) :
    RowOutcome × List Tx :=
  processRowWith db (fun m f => .ok (rangeQuery db m f)) db now r

/-- Accumulated loop state: the table plus the four counters the source
maintains (`new_transactions_inserted_count`, `exact_duplicates_skipped`,
`failed_rows_count`, `pending_confirmation_list`), plus the per-row
classification trace used to state the bookkeeping claims. -/
structure BatchState where
  db : List Tx
  insertedCount : Nat
  exactCount : Nat
  failedCount : Nat
  pendingList : List PendingItem
  classes : List RowClass
deriving DecidableEq

def batchStep (now : List Char) (st : BatchState) (r : RawRow) : BatchState :=
  match processRow st.db now r with
  | (.inserted, db2) =>
      { st with
        db := db2
        insertedCount := st.insertedCount + 1
        classes := st.classes ++ [.inserted] }
  | (.pendingConfirmation item, db2) =>
      { st with
        db := db2
        pendingList := st.pendingList ++ [item]
        classes := st.classes ++ [.pendingConfirmation] }
  | (.exactDuplicate, db2) =>
      { st with
        db := db2
        exactCount := st.exactCount + 1
        classes := st.classes ++ [.exactDuplicate] }
  | (.failed, db2) =>
      { st with
        db := db2
        failedCount := st.failedCount + 1
        classes := st.classes ++ [.failed] }

def processRows (db : List Tx) (now : List Char) (rows : List RawRow) :
    BatchState :=
  rows.foldl (batchStep now) ⟨db, 0, 0, 0, [], []⟩

/-- The `status` values of the result dict. -/
inductive PipeStatus
  | success
  | warning
  | confirmationRequired
deriving DecidableEq

/-- Lines 464-477 of `process_bank_excel.py`: start from `success`, switch to
`confirmation_required` when anything is pending, else to `warning` when any
row failed. -/
def finalStatus (pendingCount failedCount : Nat) : PipeStatus :=
  if 0 < pendingCount then .confirmationRequired
  else if 0 < failedCount then .warning
  else .success

/-- The result dict of `process_excel_file` (human-readable `message`
omitted). -/
structure BatchResult where
  status : PipeStatus
  new_count_inserted : Nat
  pending_count : Nat
  duplicates_skipped : Nat
  failed_rows : Nat
  pending_confirmation : List PendingItem
deriving DecidableEq

/-- The core of `process_excel_file`: the row loop plus final status and
result assembly (file reading, emailing and the fatal init-db path are the
plumbing around this core).  Also returns the final table and the per-row
classification trace. -/
def process_excel_core (db : List Tx) (now : List Char) (rows : List RawRow) :
    BatchResult × List Tx × List RowClass :=
  let st := processRows db now rows
  (⟨finalStatus st.pendingList.length st.failedCount, st.insertedCount,
    st.pendingList.length, st.exactCount, st.failedCount, st.pendingList⟩,
   st.db, st.classes)

/-! ### The confirmation endpoint (`handle_confirm_transaction`). -/

inductive ConfirmAction
  | insert
  | discard
deriving DecidableEq

/-- The `details` dict the bot sends back for `action=insert` (the
`required_keys` check passes because the fields are carried). -/
structure ConfirmDetails where
  date_db : Date
  desc : List Char
  amount : ℚ
  category : Option (List Char)
deriving DecidableEq

/-- Distinct endpoint responses of `/api/confirm_transaction`. -/
inductive ConfirmOutcome
  | badRequest
  | alreadyExisted
  | insertedOk
  | insertFailed
  | discarded
deriving DecidableEq

/-- HTTP status attached to each response. -/
def ConfirmOutcome.http : ConfirmOutcome → Nat
  | .badRequest => 400
  | .alreadyExisted => 200
  | .insertedOk => 200
  | .insertFailed => 500
  | .discarded => 200

/-- JSON `status` field: `ok` or `error`. -/
def ConfirmOutcome.isOk : ConfirmOutcome → Bool
  | .badRequest => false
  | .alreadyExisted => true
  | .insertedOk => true
  | .insertFailed => false
  | .discarded => true

/-- `handle_confirm_transaction`: validate, then either re-check existence and
insert, or acknowledge a discard.  The discard branch only logs ("Opcional:
Guardar log de descartados") and changes no state. -/
def handle_confirm_transaction (db : List Tx) (txId : Option (List Char))
    (action : Option ConfirmAction) (details : Option ConfirmDetails)
    (now : List Char) : ConfirmOutcome × List Tx :=
  match txId, action with
  | some tid, some act =>
      if tid.isEmpty then (.badRequest, db)
      else
        match act with
        | .insert =>
            match details with
            | none => (.badRequest, db)
            | some d =>
                if check_if_id_exists db tid then (.alreadyExisted, db)
                else
                  let tx : Tx := ⟨tid, d.date_db, d.desc, d.amount,
                    d.category, now⟩
                  match insert_transaction db tx with
                  | (true, db2) => (.insertedOk, db2)
                  | (false, db2) => (.insertFailed, db2)
        | .discard => (.discarded, db)
  | _, _ => (.badRequest, db)

/-! ## Concrete scenario data used by witnesses and counterexamples -/

/-- A stored ledger transaction used in concrete scenarios. -/
def txE : Tx :=
  ⟨"e1".toList, ⟨2024, 1, 5⟩, "SUPERMARKET ABC".toList, 5, none, []⟩

/-- A fresh spreadsheet row two days after `txE` with a near-identical
description: the batch pipeline flags it as a pending near-duplicate. -/
def rowR : RawRow :=
  ⟨some ⟨2024, 1, 7⟩, some "SUPERMARKET ABC".toList, some 5, none⟩

/-! ## Claim theorems -/

/-- C7: the overall batch status follows the precedence rule — a non-empty
pending list forces `confirmation_required`; otherwise any failed row gives
`warning`; otherwise `success`. -/
theorem final_status_precedence (db : List Tx) (now : List Char)
    (rows : List RawRow) :
    (process_excel_core db now rows).1.status =
      (if (process_excel_core db now rows).1.pending_confirmation ≠ [] then
        PipeStatus.confirmationRequired
      else if (process_excel_core db now rows).1.failed_rows ≠ 0 then
        PipeStatus.warning
      else PipeStatus.success) := by
  simp only [process_excel_core, finalStatus]
  by_cases hp : (processRows db now rows).pendingList = []
  · by_cases hf : (processRows db now rows).failedCount = 0 <;>
      simp [hp, hf, Nat.pos_iff_ne_zero]
  · simp [hp, List.length_pos.mpr hp]

/-- C8: an insert whose fingerprint is already the key of exactly one ledger
entry returns the non-success result (`False`, the caught `IntegrityError`,
i.e. `AlreadyExists`) without raising, leaves the table unchanged, and so
leaves exactly one entry for that fingerprint. -/
theorem insert_idempotent_already_exists (db : List Tx) (tx : Tx)
    (h : db.countP
      (fun t => decide (t.transaction_id = tx.transaction_id)) = 1) :
    insert_transaction db tx = (false, db) ∧
    (insert_transaction db tx).2.countP
      (fun t => decide (t.transaction_id = tx.transaction_id)) = 1 := by
  have hany : db.any
      (fun t => decide (t.transaction_id = tx.transaction_id)) = true := by
    rw [List.any_eq_true]
    have hpos : 0 < db.countP
        (fun t => decide (t.transaction_id = tx.transaction_id)) := by omega
    obtain ⟨a, ha, hpa⟩ := List.countP_pos_iff.mp hpos
    exact ⟨a, ha, hpa⟩
  refine ⟨?_, ?_⟩
  · simp [insert_transaction, hany]
  · simp [insert_transaction, hany, h]

/-- Witness for C8 at a concrete ledger: re-inserting a record carrying
`txE`'s fingerprint is refused and the single entry survives. -/
theorem insert_idempotent_already_exists_witness :
    ([txE].countP
      (fun t => decide (t.transaction_id =
        (Tx.mk "e1".toList ⟨2024, 1, 6⟩ "OTHER".toList 7 none []).transaction_id)) = 1) ∧
    (insert_transaction [txE]
        (Tx.mk "e1".toList ⟨2024, 1, 6⟩ "OTHER".toList 7 none []) =
      (false, [txE]) ∧
    (insert_transaction [txE]
        (Tx.mk "e1".toList ⟨2024, 1, 6⟩ "OTHER".toList 7 none [])).2.countP
      (fun t => decide (t.transaction_id =
        (Tx.mk "e1".toList ⟨2024, 1, 6⟩ "OTHER".toList 7 none []).transaction_id)) = 1) :=
  ⟨by decide, insert_idempotent_already_exists [txE] _ (by decide)⟩

/-- C9: resolving `action=insert` for a candidate whose fingerprint already
exists answers `ok`/HTTP 200 with the "ya existía, no se re-insertó" outcome,
inserts nothing, and is not an error. -/
theorem confirm_insert_concurrent_ok (db : List Tx) (tid : List Char)
    (d : ConfirmDetails) (now : List Char)
    (h : check_if_id_exists db tid = true) :
    handle_confirm_transaction db (some tid) (some .insert) (some d) now =
      (.alreadyExisted, db) ∧
    ConfirmOutcome.alreadyExisted.isOk = true ∧
    ConfirmOutcome.alreadyExisted.http = 200 := by
  have hne : tid.isEmpty = false := by
    cases hE : tid.isEmpty
    · rfl
    · rw [check_if_id_exists, hE] at h
      simp at h
  exact ⟨by simp [handle_confirm_transaction, hne, h], rfl, rfl⟩

/-! ### Bookkeeping invariants of the row loop -/

/-- Total of the four per-class tallies plus the (never-incremented) count of
`previouslyDiscarded` classifications in the trace. -/
def stSum (st : BatchState) : Nat :=
  st.insertedCount + st.pendingList.length + st.exactCount +
    st.classes.count RowClass.previouslyDiscarded + st.failedCount

theorem batchStep_sum (now : List Char) (st : BatchState) (r : RawRow) :
    stSum (batchStep now st r) = stSum st + 1 ∧
    (batchStep now st r).classes.length = st.classes.length + 1 := by
  rcases hpr : processRow st.db now r with ⟨o, db2⟩
  cases o <;>
    simp [batchStep, hpr, stSum, List.count_append, List.count_cons,
      List.count_nil, List.length_append] <;>
    omega

theorem processRows_sum_aux (now : List Char) (rows : List RawRow) :
    ∀ init : BatchState,
      stSum (rows.foldl (batchStep now) init) = stSum init + rows.length ∧
      (rows.foldl (batchStep now) init).classes.length =
        init.classes.length + rows.length := by
  induction rows with
  | nil => intro init; simp
  | cons r rs ih =>
      intro init
      rcases ih (batchStep now init r) with ⟨h1, h2⟩
      rcases batchStep_sum now init r with ⟨g1, g2⟩
      refine ⟨?_, ?_⟩ <;> simp only [List.foldl_cons, h1, h2, g1, g2,
        List.length_cons] <;> omega

/-- C4: every processed row receives exactly one classification, so the five
outcome counts add up to the number of input rows.  (The
`previouslyDiscarded` summand is the tally of that classification in the
trace; the loop never produces it, so it is the code's implicit zero.) -/
theorem row_classification_partition (db : List Tx) (now : List Char)
    (rows : List RawRow) :
    (process_excel_core db now rows).2.2.length = rows.length ∧
    (process_excel_core db now rows).1.new_count_inserted +
      (process_excel_core db now rows).1.pending_count +
      (process_excel_core db now rows).1.duplicates_skipped +
      (process_excel_core db now rows).2.2.count RowClass.previouslyDiscarded +
      (process_excel_core db now rows).1.failed_rows = rows.length := by
  rcases processRows_sum_aux now rows ⟨db, 0, 0, 0, [], []⟩ with ⟨h1, h2⟩
  simp only [processRows, stSum, List.length_nil, List.count_nil] at h1 h2
  simp only [process_excel_core, processRows]
  omega

/-- No loop iteration can classify a row `previouslyDiscarded`. -/
theorem batchStep_no_prev (now : List Char) (st : BatchState) (r : RawRow)
    (h : ∀ c ∈ st.classes, c ≠ RowClass.previouslyDiscarded) :
    ∀ c ∈ (batchStep now st r).classes,
      c ≠ RowClass.previouslyDiscarded := by
  rcases hpr : processRow st.db now r with ⟨o, db2⟩
  cases o <;> simp only [batchStep, hpr] <;>
    intro c hc <;>
    rcases List.mem_append.mp hc with h1 | h1 <;>
    first
      | exact h c h1
      | simp only [List.mem_singleton] at h1; subst h1; intro hcon; cases hcon

theorem processRows_no_prev (db : List Tx) (now : List Char)
    (rows : List RawRow) :
    ∀ c ∈ (processRows db now rows).classes,
      c ≠ RowClass.previouslyDiscarded := by
  suffices hgen : ∀ (rs : List RawRow) (init : BatchState),
      (∀ c ∈ init.classes, c ≠ RowClass.previouslyDiscarded) →
      ∀ c ∈ (rs.foldl (batchStep now) init).classes,
        c ≠ RowClass.previouslyDiscarded by
    exact hgen rows ⟨db, 0, 0, 0, [], []⟩ (by simp)
  intro rs
  induction rs with
  | nil => intro init h; exact h
  | cons r rs ih =>
      intro init h
      exact ih (batchStep now init r) (batchStep_no_prev now init r h)

/-- C1 amended: a discard resolution changes no state at all — the program
records no discard log — so a later batch behaves exactly as if the discard
had never happened, and (in particular) a row can never be classified
`previouslyDiscarded`; a still-near-matching fingerprint is asked about
again. -/
theorem discard_not_persisted (db : List Tx) (tid : Option (List Char))
    (now now2 : List Char) (rows : List RawRow) :
    (handle_confirm_transaction db tid (some .discard) none now).2 = db ∧
    process_excel_core
        (handle_confirm_transaction db tid (some .discard) none now).2
        now2 rows =
      process_excel_core db now2 rows ∧
    ∀ c ∈ (process_excel_core db now2 rows).2.2,
      c ≠ RowClass.previouslyDiscarded := by
  have hdb :
      (handle_confirm_transaction db tid (some .discard) none now).2 = db := by
    rcases tid with _ | t
    · rfl
    · by_cases hE : t.isEmpty <;> simp [handle_confirm_transaction, hE]
  exact ⟨hdb, by rw [hdb], processRows_no_prev db now2 rows⟩

/-- Counterexample to C1 as stated: discarding the pending near-duplicate
`rowR` (its fingerprint resolved by the user against `txE`) leaves the ledger
unchanged, and re-processing the same batch classifies the row
`pendingConfirmation` again — not `previouslyDiscarded`. -/
theorem discard_not_persisted_counterexample :
    handle_confirm_transaction [txE] (get_transaction_id rowR)
        (some ConfirmAction.discard) none [] =
      (ConfirmOutcome.discarded, [txE]) ∧
    (process_excel_core [txE] [] [rowR]).2.2 =
      [RowClass.pendingConfirmation] := by
  decide

/-! ### Row-level race and storage-error behaviour -/

/-- A fresh row whose insert races with a concurrent writer in the C2
scenario. -/
def rowC2 : RawRow := ⟨some ⟨2024, 1, 7⟩, some "CINE".toList, some 30, none⟩

/-- The concurrently-inserted ledger entry that already owns `rowC2`'s
fingerprint by the time the row's own `INSERT` runs. -/
def txRace : Tx :=
  ⟨(get_transaction_id rowC2).getD [], ⟨2024, 2, 1⟩, "x".toList, 1, none, []⟩

/-- C2 amended: when a row passes the exact-duplicate check but its `INSERT`
then fails because the fingerprint meanwhile exists (the benign concurrent
race), the loop counts the row as `failed` ("Contando como fallo"), leaving
the table unchanged — it is not reclassified `exactDuplicate`. -/
theorem race_insert_counted_failed (dbCheck dbIns : List Tx)
    (query : ℚ → Date → Except Unit (List Tx)) (now : List Char) (r : RawRow)
    (fecha : Date) (a : ℚ) (tid : List Char)
    (hf : r.fecha = some fecha) (ha : r.monto = some a)
    (hid : get_transaction_id r = some tid)
    (hch : check_if_id_exists dbCheck tid = false)
    (hnd : find_potential_duplicate (query (round2 a) fecha) (effDesc r) = none)
    (hrace : tid ∈ dbIns.map (fun t => t.transaction_id)) :
    (processRowWith dbCheck query dbIns now r).1 = RowOutcome.failed ∧
    (processRowWith dbCheck query dbIns now r).2 = dbIns := by
  have hany : dbIns.any (fun t => decide (t.transaction_id = tid)) = true := by
    rw [List.any_eq_true]
    rcases List.mem_map.mp hrace with ⟨t, ht, he⟩
    exact ⟨t, ht, by simp [he]⟩
  constructor <;>
    simp [processRowWith, hf, ha, hid, hch, hnd, insert_transaction, hany]

/-- Counterexample to C2 as stated: in the concrete race scenario the row is
counted `failed`, not `exactDuplicate`. -/
theorem race_insert_counted_failed_counterexample :
    (processRowWith [] (fun _ _ => Except.ok []) [txRace] [] rowC2).1 =
      RowOutcome.failed ∧
    RowOutcome.failed.toClass ≠ RowClass.exactDuplicate := by
  decide

/-- Witness for the C2 amended theorem at the concrete race scenario. -/
theorem race_insert_counted_failed_witness :
    rowC2.fecha = some ⟨2024, 1, 7⟩ ∧
    rowC2.monto = some 30 ∧
    get_transaction_id rowC2 = some txRace.transaction_id ∧
    check_if_id_exists [] txRace.transaction_id = false ∧
    find_potential_duplicate (Except.ok []) (effDesc rowC2) = none ∧
    txRace.transaction_id ∈ [txRace].map (fun t => t.transaction_id) ∧
    ((processRowWith [] (fun _ _ => Except.ok []) [txRace] [] rowC2).1 =
        RowOutcome.failed ∧
      (processRowWith [] (fun _ _ => Except.ok []) [txRace] [] rowC2).2 =
        [txRace]) :=
  ⟨by decide, by decide, by decide, by decide, by decide, by decide,
    race_insert_counted_failed [] [txRace] (fun _ _ => Except.ok []) [] rowC2
      ⟨2024, 1, 7⟩ 30 txRace.transaction_id (by decide) (by decide)
      (by decide) (by decide) (by decide) (by decide)⟩

/-- A fresh row for the storage-error scenario. -/
def rowC10 : RawRow := ⟨some ⟨2024, 3, 1⟩, some "GYM".toList, some 20, none⟩

/-- C10: a `sqlite3.Error` inside the near-duplicate query is swallowed into
"no match", so the pipeline proceeds to insert the (fresh) record instead of
failing or pending it. -/
theorem query_error_treated_as_no_match (db : List Tx) (now : List Char)
    (r : RawRow) (fecha : Date) (a : ℚ) (tid : List Char)
    (hf : r.fecha = some fecha) (ha : r.monto = some a)
    (hid : get_transaction_id r = some tid)
    (hfresh : tid ∉ db.map (fun t => t.transaction_id)) :
    find_potential_duplicate (Except.error ()) (effDesc r) = none ∧
    processRowWith db (fun _ _ => Except.error ()) db now r =
      (RowOutcome.inserted,
        db ++ [⟨tid, fecha, effDesc r, round2 a, none, now⟩]) := by
  have hany : db.any (fun t => decide (t.transaction_id = tid)) = false := by
    rw [List.any_eq_false]
    intro t ht
    simp only [decide_eq_true_eq]
    intro he
    exact hfresh (List.mem_map.mpr ⟨t, ht, he⟩)
  have hch : check_if_id_exists db tid = false := by
    by_cases hE : tid.isEmpty <;> simp [check_if_id_exists, hE, hany]
  refine ⟨rfl, ?_⟩
  simp [processRowWith, hf, ha, hid, hch, insert_transaction, hany,
    find_potential_duplicate]

/-- Witness for C10: with the ledger holding `txE`, a failing candidate query
still lets the fresh `rowC10` be inserted. -/
theorem query_error_treated_as_no_match_witness :
    rowC10.fecha = some ⟨2024, 3, 1⟩ ∧
    rowC10.monto = some 20 ∧
    get_transaction_id rowC10 = some ((get_transaction_id rowC10).getD []) ∧
    ((get_transaction_id rowC10).getD [] ∉
      [txE].map (fun t => t.transaction_id)) ∧
    (find_potential_duplicate (Except.error ()) (effDesc rowC10) = none ∧
      processRowWith [txE] (fun _ _ => Except.error ()) [txE] [] rowC10 =
        (RowOutcome.inserted,
          [txE] ++ [⟨(get_transaction_id rowC10).getD [], ⟨2024, 3, 1⟩,
            effDesc rowC10, round2 20, none, []⟩])) :=
  ⟨by decide, by decide, by decide, by decide,
    query_error_treated_as_no_match [txE] [] rowC10 ⟨2024, 3, 1⟩ 20
      ((get_transaction_id rowC10).getD []) (by decide) (by decide)
      (by decide) (by decide)⟩

/-! ### Fingerprint invariance (C3) -/

theorem rndHalfEven_intCast (c : Int) : rndHalfEven ((c : ℚ)) = c := by
  simp [rndHalfEven, Rat.floor, Rat.num_intCast, Rat.den_intCast]

theorem qMul_hundred_mkRat (c : Int) : qMul 100 (mkRat c 100) = (c : ℚ) := by
  rw [qMul_eq, Rat.mkRat_eq_div]
  push_cast
  field_simp

/-- Formatting to two decimals is idempotent under the loop's prior
`round(x, 2)`. -/
theorem format2_round2 (x : ℚ) : format2 (round2 x) = format2 x := by
  unfold format2 round2
  rw [qMul_hundred_mkRat, rndHalfEven_intCast]

/-- Rows for the whitespace counterexample: identical except for an internal
double space in the description. -/
def rowWs1 : RawRow := ⟨some ⟨2024, 1, 5⟩, some "a b".toList, some 5, none⟩

def rowWs2 : RawRow := ⟨some ⟨2024, 1, 5⟩, some "a  b".toList, some 5, none⟩

/-- Counterexample to C3 as stated: the two descriptions differ only by
internal whitespace (their matcher normalizations agree), yet the
fingerprints differ — `get_transaction_id` strips and lowercases but does not
collapse internal whitespace. -/
theorem fingerprint_whitespace_counterexample :
    normSim "a b".toList = normSim "a  b".toList ∧
    rowWs1.bankId = none ∧ rowWs2.bankId = none ∧
    get_transaction_id rowWs1 ≠ get_transaction_id rowWs2 := by
  decide

/-- C3 amended: for records without a bank identifier the fingerprint is
deterministic, invariant under description changes that preserve the
strip-then-lowercase normalization (letter case and leading/trailing
whitespace — but not internal whitespace), and invariant under re-rounding
the amount to 2 decimals. -/
theorem fingerprint_invariance :
    (∀ r : RawRow, get_transaction_id r = get_transaction_id r) ∧
    (∀ (fecha : Date) (d1 d2 : List Char) (a : ℚ),
      lowerWs (trimWs d1) = lowerWs (trimWs d2) →
      get_transaction_id ⟨some fecha, some d1, some a, none⟩ =
        get_transaction_id ⟨some fecha, some d2, some a, none⟩) ∧
    (∀ (fecha : Date) (d : List Char) (a : ℚ),
      get_transaction_id ⟨some fecha, some d, some (round2 a), none⟩ =
        get_transaction_id ⟨some fecha, some d, some a, none⟩) := by
  refine ⟨fun r => rfl, ?_, ?_⟩
  · intro fecha d1 d2 a h
    simp [get_transaction_id, h]
  · intro fecha d a
    simp [get_transaction_id, format2_round2]

/-- Witness for the C3 amended theorem: a case/outer-whitespace variant pair
and a rounding instance, at concrete inputs. -/
theorem fingerprint_invariance_witness :
    (lowerWs (trimWs "  SUPERMARKET ABC ".toList) =
      lowerWs (trimWs "supermarket abc".toList)) ∧
    get_transaction_id
        ⟨some ⟨2024, 1, 5⟩, some "  SUPERMARKET ABC ".toList,
          some (mkRat 399 100), none⟩ =
      get_transaction_id
        ⟨some ⟨2024, 1, 5⟩, some "supermarket abc".toList,
          some (mkRat 399 100), none⟩ ∧
    get_transaction_id
        ⟨some ⟨2024, 1, 5⟩, some "x".toList,
          some (round2 (mkRat 12345 1000)), none⟩ =
      get_transaction_id
        ⟨some ⟨2024, 1, 5⟩, some "x".toList, some (mkRat 12345 1000), none⟩ :=
  ⟨by decide,
    fingerprint_invariance.2.1 ⟨2024, 1, 5⟩ "  SUPERMARKET ABC ".toList
      "supermarket abc".toList (mkRat 399 100) (by decide),
    fingerprint_invariance.2.2 ⟨2024, 1, 5⟩ "x".toList (mkRat 12345 1000)⟩

/-! ### Candidate query ordering (C5) -/

/-- The ordering the specification asserts: closest to the target date
first. -/
def proximityOrdered (dt : Date) (l : List Tx) : Prop :=
  l.Pairwise (fun a b =>
    (a.transaction_date.toDays - dt.toDays).natAbs ≤
      (b.transaction_date.toDays - dt.toDays).natAbs)

/-- A stored transaction three days after the C5 target date. -/
def txNewer : Tx := ⟨"n1".toList, ⟨2024, 1, 8⟩, "AAA".toList, 5, none, []⟩

/-- A stored transaction exactly on the C5 target date. -/
def txOnDate : Tx := ⟨"o1".toList, ⟨2024, 1, 5⟩, "BBB".toList, 5, none, []⟩

/-- Counterexample to C5 as stated: the query orders by date descending
(`ORDER BY transaction_date DESC`), so the entry three days away precedes the
entry zero days away — not proximity order. -/
theorem candidate_order_counterexample :
    rangeQuery [txOnDate, txNewer] 5 ⟨2024, 1, 5⟩ = [txNewer, txOnDate] ∧
    ¬ proximityOrdered ⟨2024, 1, 5⟩
      (rangeQuery [txOnDate, txNewer] 5 ⟨2024, 1, 5⟩) := by
  have hq : rangeQuery [txOnDate, txNewer] 5 ⟨2024, 1, 5⟩ =
      [txNewer, txOnDate] := by decide
  refine ⟨hq, ?_⟩
  intro h
  rw [proximityOrdered, hq] at h
  have h2 := (List.pairwise_cons.mp h).1 txOnDate (by simp)
  exact absurd h2 (by decide)

/-- C5 amended: the candidate sequence is ordered by date descending (most
recent first), restricted to the amount/date window, and bounded by the
candidate limit 10. -/
theorem candidate_query_order (db : List Tx) (a : ℚ) (dt : Date) :
    (rangeQuery db a dt).length ≤ 10 ∧
    (rangeQuery db a dt).Pairwise dateDescOrder ∧
    ∀ t ∈ rangeQuery db a dt, inWindow a dt t = true := by
  refine ⟨List.length_take_le _ _, ?_, ?_⟩
  · have hs : List.Sorted dateDescOrder
        (List.insertionSort dateDescOrder (db.filter (inWindow a dt))) :=
      List.sorted_insertionSort dateDescOrder _
    exact List.Pairwise.sublist (List.take_sublist 10 _) hs
  · intro t ht
    have h1 : t ∈ List.insertionSort dateDescOrder
        (db.filter (inWindow a dt)) := List.take_subset _ _ ht
    have h2 : t ∈ db.filter (inWindow a dt) :=
      (List.perm_insertionSort dateDescOrder _).mem_iff.mp h1
    exact (List.mem_filter.mp h2).2

/-! ### Near-duplicate matcher selection (C6) -/

theorem simScore_nonneg (a b : List Char) : 0 ≤ simScore a b := by
  rw [simScore]
  split
  · norm_num
  · rw [Rat.mkRat_eq_div]
    positivity

theorem threshold_pos : (0 : ℚ) < SIMILARITY_THRESHOLD := by decide

/-- Invariant of the scoring fold: the accumulator is either still empty with
no threshold-clearing candidate seen, or holds a seen candidate of maximal
similarity that clears the threshold. -/
def ScanInv (description : List Char) (seen : List Tx)
    (acc : Option Tx × ℚ) : Prop :=
  match acc with
  | (none, hi) =>
      hi = 0 ∧ ∀ t ∈ seen, simOf description t < SIMILARITY_THRESHOLD
  | (some m, hi) =>
      SIMILARITY_THRESHOLD ≤ hi ∧ hi = simOf description m ∧
        m ∈ seen ∧ ∀ t ∈ seen, simOf description t ≤ hi

theorem scanStep_inv (description : List Char) (seen : List Tx)
    (acc : Option Tx × ℚ) (c : Tx) (h : ScanInv description seen acc) :
    ScanInv description (seen ++ [c]) (scanStep description acc c) := by
  rcases acc with ⟨b, hi⟩
  rw [scanStep]
  by_cases hcond : SIMILARITY_THRESHOLD ≤ simOf description c ∧
      hi < simOf description c
  · rw [if_pos hcond]
    refine ⟨hcond.1, rfl, List.mem_append_right _ (by simp), ?_⟩
    intro t ht
    rcases List.mem_append.mp ht with h1 | h1
    · cases b with
      | none =>
          rcases h with ⟨_, hall⟩
          exact le_of_lt (lt_of_lt_of_le (hall t h1) hcond.1)
      | some m =>
          rcases h with ⟨_, _, _, hall⟩
          exact le_of_lt (lt_of_le_of_lt (hall t h1) hcond.2)
    · rw [List.mem_singleton.mp h1]
  · rw [if_neg hcond]
    push_neg at hcond
    cases b with
    | none =>
        rcases h with ⟨h0, hall⟩
        refine ⟨h0, ?_⟩
        intro t ht
        rcases List.mem_append.mp ht with h1 | h1
        · exact hall t h1
        · rw [List.mem_singleton.mp h1]
          by_contra hge
          push_neg at hge
          have hs := hcond hge
          rw [h0] at hs
          have := simScore_nonneg (normSim description) (normSim c.description)
          have hz : simOf description c = 0 := le_antisymm hs this
          rw [hz] at hge
          exact absurd (lt_of_lt_of_le threshold_pos hge) (lt_irrefl 0)
    | some m =>
        rcases h with ⟨hθ, heq, hm, hall⟩
        refine ⟨hθ, heq, List.mem_append_left _ hm, ?_⟩
        intro t ht
        rcases List.mem_append.mp ht with h1 | h1
        · exact hall t h1
        · rw [List.mem_singleton.mp h1]
          rcases le_or_lt SIMILARITY_THRESHOLD (simOf description c) with hh | hh
          · exact hcond hh
          · exact le_of_lt (lt_of_lt_of_le hh hθ)

theorem scanFold_inv (description : List Char) :
    ∀ (cands seen : List Tx) (acc : Option Tx × ℚ),
      ScanInv description seen acc →
      ScanInv description (seen ++ cands)
        (cands.foldl (scanStep description) acc) := by
  intro cands
  induction cands with
  | nil =>
      intro seen acc h
      simpa using h
  | cons c cs ih =>
      intro seen acc h
      have h2 := ih (seen ++ [c]) (scanStep description acc c)
        (scanStep_inv description seen acc c h)
      simpa [List.append_assoc] using h2

theorem scanBest_spec (description : List Char) (cands : List Tx) :
    ScanInv description cands (scanBest description cands) := by
  have h := scanFold_inv description cands [] (none, 0) (by simp [ScanInv])
  simpa [scanBest] using h

/-- C6: among the (at most 10, here not truncated) windowed candidates —
within the ±0.01 amount tolerance and the ±3-day window — the matcher
returns one of maximal similarity provided it clears the 0.6 threshold, and
returns none when no windowed candidate does (in particular when the window
is empty, e.g. a pair 10 days apart). -/
theorem matcher_best_above_threshold (db : List Tx) (a : ℚ) (dt : Date)
    (description : List Char)
    (hlen : (db.filter (inWindow a dt)).length ≤ 10) :
    match findDup db a dt description with
    | some m =>
        m ∈ db ∧ inWindow a dt m = true ∧
        SIMILARITY_THRESHOLD ≤ simOf description m ∧
        ∀ t ∈ db, inWindow a dt t = true →
          simOf description t ≤ simOf description m
    | none =>
        ∀ t ∈ db, inWindow a dt t = true →
          simOf description t < SIMILARITY_THRESHOLD := by
  have hlen2 : (List.insertionSort dateDescOrder
      (db.filter (inWindow a dt))).length ≤ 10 := by
    rw [List.length_insertionSort]
    exact hlen
  have hq : rangeQuery db a dt =
      List.insertionSort dateDescOrder (db.filter (inWindow a dt)) := by
    rw [rangeQuery]
    exact List.take_of_length_le hlen2
  have hmem : ∀ t : Tx,
      t ∈ List.insertionSort dateDescOrder (db.filter (inWindow a dt)) ↔
        t ∈ db ∧ inWindow a dt t = true := by
    intro t
    rw [(List.perm_insertionSort dateDescOrder
      (db.filter (inWindow a dt))).mem_iff, List.mem_filter]
  have hfd : findDup db a dt description =
      if (List.insertionSort dateDescOrder
          (db.filter (inWindow a dt))).isEmpty then none
      else (scanBest description
        (List.insertionSort dateDescOrder (db.filter (inWindow a dt)))).1 := by
    rw [findDup, hq, find_potential_duplicate]
  cases hemp : (List.insertionSort dateDescOrder
      (db.filter (inWindow a dt))).isEmpty with
  | true =>
      rw [hfd, hemp, if_pos rfl]
      intro t ht hw
      have hmem2 := (hmem t).mpr ⟨ht, hw⟩
      rw [List.isEmpty_iff.mp hemp] at hmem2
      exact absurd hmem2 (List.not_mem_nil t)
  | false =>
      rw [hfd, hemp]
      simp only [Bool.false_eq_true, if_false]
      have hspec := scanBest_spec description
        (List.insertionSort dateDescOrder (db.filter (inWindow a dt)))
      rcases hsb : scanBest description
          (List.insertionSort dateDescOrder (db.filter (inWindow a dt)))
        with ⟨b, hi⟩
      rw [hsb] at hspec
      cases b with
      | none =>
          intro t ht hw
          exact hspec.2 t ((hmem t).mpr ⟨ht, hw⟩)
      | some m =>
          rcases hspec with ⟨hθ, heq, hm, hall⟩
          refine ⟨((hmem m).mp hm).1, ((hmem m).mp hm).2, heq ▸ hθ, ?_⟩
          intro t ht hw
          have hle := hall t ((hmem t).mpr ⟨ht, hw⟩)
          rw [heq] at hle
          exact hle

/-- Witness for C6, matching the specification's scenario: same amount, two
days apart, descriptions "SUPERMARKET ABC" vs "supermarket   abc". -/
theorem matcher_best_above_threshold_witness :
    (([txE].filter (inWindow 5 ⟨2024, 1, 7⟩)).length ≤ 10) ∧
    (match findDup [txE] 5 ⟨2024, 1, 7⟩ "supermarket   abc".toList with
    | some m =>
        m ∈ [txE] ∧ inWindow 5 ⟨2024, 1, 7⟩ m = true ∧
        SIMILARITY_THRESHOLD ≤ simOf "supermarket   abc".toList m ∧
        ∀ t ∈ [txE], inWindow 5 ⟨2024, 1, 7⟩ t = true →
          simOf "supermarket   abc".toList t ≤
            simOf "supermarket   abc".toList m
    | none =>
        ∀ t ∈ [txE], inWindow 5 ⟨2024, 1, 7⟩ t = true →
          simOf "supermarket   abc".toList t < SIMILARITY_THRESHOLD) :=
  ⟨by decide, matcher_best_above_threshold [txE] 5 ⟨2024, 1, 7⟩
    "supermarket   abc".toList (by decide)⟩

/-- Witness for C9: confirming an insert of `txE`'s fingerprint against a
ledger that already holds `txE`. -/
theorem confirm_insert_concurrent_ok_witness :
    check_if_id_exists [txE] "e1".toList = true ∧
    (handle_confirm_transaction [txE] (some "e1".toList)
        (some .insert)
        (some (ConfirmDetails.mk ⟨2024, 1, 7⟩ "x".toList 5 none)) [] =
      (.alreadyExisted, [txE]) ∧
    ConfirmOutcome.alreadyExisted.isOk = true ∧
    ConfirmOutcome.alreadyExisted.http = 200) :=
  ⟨by decide, confirm_insert_concurrent_ok [txE] "e1".toList
    (ConfirmDetails.mk ⟨2024, 1, 7⟩ "x".toList 5 none) [] (by decide)⟩

end Bank
